import Mathlib

/-!
Shallow embedding of the sunrise-expo core:
  * `src/services/alarm.ts` — alarm scheduling engine (tracked notification-id
    set in AsyncStorage, legacy single-id migration, schedule/snooze/cancel);
  * `src/api/weather.ts` — two-tier weather cache keyed by rounded coordinates
    with TTL freshness;
  * `getSunAltitude` in `src/App.tsx` — piecewise sine sun-altitude model.

Asynchronous effectful TypeScript is embedded as explicit state passing over a
`World` record holding the AsyncStorage keys the module uses and the platform
notification service's visible state.  JSON values stored under the tracked-id
key are embedded as the inductive `JValue`; a raw string that `JSON.parse`
rejects is the constructor `JValue.invalid`.  `JSON.stringify`/`JSON.parse`
round-tripping of well-formed values is implicit in storing parsed values.
-/

namespace SunriseExpo

/-- Parsed JSON stored under an AsyncStorage key.  `invalid` stands for a raw
string that is not valid JSON (`JSON.parse` throws on it). -/
inductive JValue where
  | jnull : JValue
  | jbool : Bool → JValue
  | jnum : ℚ → JValue
  | jstr : String → JValue
  | jarr : List JValue → JValue
  | jobj : List (String × JValue) → JValue
  | invalid : JValue

/-- The `parsed.every((x) => typeof x === "string")` check of
`safeParseIdArray`: the element list of a JSON array, provided every element is
a string. -/
def allStrings : List JValue → Option (List String)
  | [] => some []
  | JValue.jstr s :: rest => (allStrings rest).map (fun l => s :: l)
  | _ :: _ => none

/-- `safeParseIdArray` from `src/services/alarm.ts`: `null` or unparseable or
non-string-array input reads back as the empty list. -/
def safeParseIdArray (raw : Option JValue) : List String :=
  match raw with
  | none => []
  | some (JValue.jarr xs) =>
    match allStrings xs with
    | some l => l
    | none => []
  | some _ => []

/-- Platform notification trigger: `scheduleSunriseAlarm` uses a DATE trigger
at an instant (ms), `scheduleSnooze` a relative seconds trigger. -/
inductive Trigger where
  | date : Int → Trigger
  | seconds : Int → Trigger
deriving DecidableEq

/-- Combined state: the two AsyncStorage keys the alarm module uses
(`sunriseAlarm.notificationIds` parsed, `sunriseAlarm.notificationId` raw
legacy string), plus the platform notification service: its fresh-id counter,
the pending scheduled notifications, the traces of issued cancel/dismiss
calls, and failure oracles deciding which per-id platform calls throw. -/
structure World where
  idsKey : Option JValue
  legacyKey : Option String
  nextId : Nat
  scheduled : List (String × Trigger)
  cancelCalls : List String
  dismissCalls : List String
  cancelFails : String → Bool
  dismissFails : String → Bool

/-- Platform-generated notification identifier: an opaque nonempty string,
distinct for each counter value. -/
def idFromNat (n : Nat) : String :=
  String.mk (List.replicate (n + 1) 'x')

/-- `getStoredIds`: read and safely parse the tracked-id key. -/
def getStoredIds (w : World) : List String :=
  safeParseIdArray w.idsKey

/-- `Array.from(new Set(ids))`: duplicate removal keeping first occurrences,
as a JavaScript `Set` does. -/
def jsSetDedup : List String → List String
  | [] => []
  | x :: xs => x :: jsSetDedup (xs.filter (fun y => y ≠ x))
termination_by l => l.length
decreasing_by
  simp only [List.length_cons]
  exact Nat.lt_succ_of_le (List.length_filter_le _ _)

/-- `setStoredIds`: persist `Array.from(new Set(ids)).filter(Boolean)` as a
JSON string array (the empty string is the only falsy string). -/
def setStoredIds (ids : List String) (w : World) : World :=
  { w with
      idsKey := some (JValue.jarr (((jsSetDedup ids).filter (fun s => s ≠ "")).map JValue.jstr)) }

/-- `addStoredId`: append one id to the tracked set and persist. -/
def addStoredId (id : String) (w : World) : World :=
  setStoredIds (getStoredIds w ++ [id]) w

/-- `clearStoredIds`: read the tracked set and the legacy single-id record,
remove both keys, and return their union (legacy only when truthy),
deduplicated and with falsy (empty) ids dropped. -/
def clearStoredIds (w : World) : List String × World :=
  let ids := getStoredIds w
  let legacy := w.legacyKey
  let w' := { w with idsKey := none, legacyKey := none }
  let all := match legacy with
    | some s => if s ≠ "" then ids ++ [s] else ids
    | none => ids
  ((jsSetDedup all).filter (fun s => s ≠ ""), w')

/-- `Notifications.scheduleNotificationAsync`: the platform hands back a fresh
id and records the pending notification with its trigger. -/
def scheduleNotificationAsync (tr : Trigger) (w : World) : String × World :=
  let id := idFromNat w.nextId
  (id, { w with nextId := w.nextId + 1, scheduled := w.scheduled ++ [(id, tr)] })

/-- `Notifications.cancelScheduledNotificationAsync(id)`: records the issued
call; either throws (per the failure oracle), or removes the pending
notification with that id.  The returned `Except` is the promise outcome and
the `World` the state when it settles. -/
def cancelScheduledNotificationAsync (id : String) (w : World) :
    Except String Unit × World :=
  let w1 := { w with cancelCalls := w.cancelCalls ++ [id] }
  if w1.cancelFails id then (Except.error ("cancel failed"), w1)
  else (Except.ok (), { w1 with scheduled := w1.scheduled.filter (fun p => p.1 ≠ id) })

/-- `Notifications.dismissNotificationAsync(id)`: records the issued call;
either throws (per the failure oracle) or succeeds. -/
def dismissNotificationAsync (id : String) (w : World) :
    Except String Unit × World :=
  let w1 := { w with dismissCalls := w.dismissCalls ++ [id] }
  if w1.dismissFails id then (Except.error ("dismiss failed"), w1) else (Except.ok (), w1)

/-- The per-id body of `cancelSunriseAlarm`'s `Promise.all`: cancel the
scheduled trigger then dismiss the delivered notification, each with
`.catch(() => undefined)` discarding the failure. -/
def cancelStep (w : World) (id : String) : World :=
  let w1 := (cancelScheduledNotificationAsync id w).2
  (dismissNotificationAsync id w1).2

/-- `cancelSunriseAlarm`: clear the stored ids (migrating the legacy record),
then best-effort cancel and dismiss each.  The `Except` component is what the
caller observes. -/
def cancelSunriseAlarm (w : World) : Except String Unit × World :=
  let p := clearStoredIds w
  if p.1.isEmpty then (Except.ok (), p.2)
  else (Except.ok (), p.1.foldl cancelStep p.2)

/-- `scheduleSunriseAlarm(when)`: always cancel whatever was previously
scheduled, then request a one-shot DATE notification and record its id as the
tracked set.  (`initAlarmNotifications` only configures the platform channel
and category, which this state does not track.) -/
def scheduleSunriseAlarm (whenMs : Int) (w : World) : String × World :=
  let w1 := (cancelSunriseAlarm w).2
  let r := scheduleNotificationAsync (Trigger.date whenMs) w1
  (r.1, addStoredId r.1 r.2)

/-- `scheduleSnooze(minutes)`: schedule an additional relative notification
`max 1 (round (minutes * 60))` seconds from now and append its id; existing
ids are not cancelled. -/
def scheduleSnooze (minutes : ℚ) (w : World) : String × World :=
  let seconds : Int := max 1 ⌊minutes * 60 + 1/2⌋
  let r := scheduleNotificationAsync (Trigger.seconds seconds) w
  (r.1, addStoredId r.1 r.2)

/-- The alarm engine's operations, for statements about arbitrary call
sequences. -/
inductive AlarmOp where
  | sched : Int → AlarmOp
  | snooze : ℚ → AlarmOp
  | cancel : AlarmOp

/-- Apply one operation, discarding the returned id. -/
def applyOp (w : World) (op : AlarmOp) : World :=
  match op with
  | AlarmOp.sched t => (scheduleSunriseAlarm t w).2
  | AlarmOp.snooze m => (scheduleSnooze m w).2
  | AlarmOp.cancel => (cancelSunriseAlarm w).2

/-- Run a sequence of operations left to right. -/
def runOps (w : World) (ops : List AlarmOp) : World :=
  ops.foldl applyOp w

/-- The platform never returns an id already in use: every id the counter can
still produce is absent from the pending list. -/
def FreshIds (w : World) : Prop :=
  ∀ n, w.nextId ≤ n → ∀ tr, (idFromNat n, tr) ∉ w.scheduled

/-! ## Weather cache (`src/api/weather.ts`) -/

/-- `current_weather` fields kept by `fetchWeatherBundle`. -/
structure CurrentTemperature where
  temperature : ℚ
  unit : Option String
  weatherCode : Option Int
  isDay : Option Bool
deriving DecidableEq

/-- One entry of the 7-day forecast. -/
structure DailyForecast where
  date : String
  temperatureMin : ℚ
  temperatureMax : ℚ
  unit : Option String
deriving DecidableEq

/-- `details` of a bundle (air quality is kept beside the bundle, not in it). -/
structure WeatherDetails where
  precipitationProbability : Option ℚ
  windSpeed : Option ℚ
  windUnit : Option String
deriving DecidableEq

/-- Combined weather payload of `src/api/weather.ts`. -/
structure WeatherBundle where
  current : CurrentTemperature
  forecast : List DailyForecast
  details : WeatherDetails
  fetchedAtMs : Int
deriving DecidableEq

/-- `CachedEntry`: the value stored in the memory slot and (JSON-serialized)
under `sunriseAlarm.weatherCache.v1`. -/
structure CachedEntry where
  key : String
  fetchedAtMs : Int
  bundle : WeatherBundle
  airQuality : Option Int
deriving DecidableEq

/-- The two cache tiers: the module-level `memoryCache` slot and the
AsyncStorage-backed record (`none` covers both an absent key and a corrupt
record, which `readPersistentCache` maps to `null`).  `persistFails` is the
oracle for `writePersistentCache`'s swallowed storage failure. -/
structure CacheState where
  memoryCache : Option CachedEntry
  persistent : Option CachedEntry
  persistFails : Bool

/-- Zero-padded three-digit decimal string for the fractional part. -/
def pad3 (m : Nat) : String :=
  if m < 10 then ("00" ++ toString m)
  else if m < 100 then ("0" ++ toString m)
  else toString m

/-- JavaScript `x.toFixed(3)`: round to the nearest multiple of `1/1000`,
half toward positive infinity (ECMA picks the larger candidate on a tie). -/
def toFixed3 (q : ℚ) : String :=
  let n : Int := ⌊q * 1000 + 1/2⌋
  let sign := if n < 0 then ("-") else ("")
  let m := n.natAbs
  sign ++ toString (m / 1000) ++ "." ++ pad3 (m % 1000)

/-- `makeCacheKey`: rounded latitude and longitude, comma-concatenated. -/
def makeCacheKey (latitude longitude : ℚ) : String :=
  toFixed3 latitude ++ "," ++ toFixed3 longitude

/-- `isFresh` from `src/api/weather.ts` (with `Date.now()` passed in). -/
def entryIsFresh (nowMs fetchedAtMs ttlMs : Int) : Bool :=
  nowMs - fetchedAtMs < ttlMs

/-- Result shape of `getCachedWeather`. -/
structure CacheLookup where
  bundle : Option WeatherBundle
  airQuality : Option Int
  isFresh : Bool
deriving DecidableEq

/-- `getCachedWeather`: memory slot first; on miss read the persistent record
and, if its key matches, promote it into the memory slot; otherwise report a
miss.  Stale entries are still returned, flagged by `isFresh`. -/
def getCachedWeather (nowMs : Int) (latitude longitude : ℚ) (ttlMs : Int)
    (s : CacheState) : CacheLookup × CacheState :=
  let key := makeCacheKey latitude longitude
  match s.memoryCache with
  | some m =>
    if m.key = key then
      (⟨some m.bundle, m.airQuality, entryIsFresh nowMs m.fetchedAtMs ttlMs⟩, s)
    else
      match s.persistent with
      | some p =>
        if p.key = key then
          (⟨some p.bundle, p.airQuality, entryIsFresh nowMs p.fetchedAtMs ttlMs⟩,
            { s with memoryCache := some p })
        else (⟨none, none, false⟩, s)
      | none => (⟨none, none, false⟩, s)
  | none =>
    match s.persistent with
    | some p =>
      if p.key = key then
        (⟨some p.bundle, p.airQuality, entryIsFresh nowMs p.fetchedAtMs ttlMs⟩,
          { s with memoryCache := some p })
      else (⟨none, none, false⟩, s)
    | none => (⟨none, none, false⟩, s)

/-- `updateWeatherCache`: stamp a fresh entry with the current time, replace
the memory slot, and best-effort write the persistent record. -/
def updateWeatherCache (nowMs : Int) (latitude longitude : ℚ)
    (bundle : WeatherBundle) (airQuality : Option Int) (s : CacheState) : CacheState :=
  let entry : CachedEntry := ⟨makeCacheKey latitude longitude, nowMs, bundle, airQuality⟩
  { memoryCache := some entry
    persistent := if s.persistFails then s.persistent else some entry
    persistFails := s.persistFails }

/-! ## Sun-altitude model (`getSunAltitude` in `src/App.tsx`) -/

/-- The shared night-segment tail of `getSunAltitude`: `null` when the span is
non-positive, else `-sin(π · nightProgress)`. -/
noncomputable def nightAltitude (timeMs nightStart nightEnd : ℚ) : Option ℝ :=
  if nightEnd - nightStart ≤ 0 then none
  else some (-Real.sin (Real.pi * (((timeMs - nightStart) / (nightEnd - nightStart) : ℚ) : ℝ)))

/-- `getSunAltitude(timeMs)` with its captured state made explicit:
`todaySunrise`, `todaySunset` and `sunriseTime` (tomorrow's sunrise, with a
`+24 h` fallback when absent).  Day branch: `sin(π · dayProgress)`; before
sunrise the night segment runs from yesterday's approximated sunset
(`sunset − 24 h`) to sunrise; after sunset it runs from sunset to the next
sunrise. -/
noncomputable def getSunAltitude (timeMs : ℚ)
    (todaySunrise todaySunset sunriseTime : Option ℚ) : Option ℝ :=
  match todaySunrise, todaySunset with
  | some sunriseMs, some sunsetMs =>
    if sunsetMs ≤ sunriseMs then none
    else if sunriseMs ≤ timeMs ∧ timeMs ≤ sunsetMs then
      some (Real.sin (Real.pi * (((timeMs - sunriseMs) / (sunsetMs - sunriseMs) : ℚ) : ℝ)))
    else if timeMs < sunriseMs then
      nightAltitude timeMs (sunsetMs - 24 * 60 * 60 * 1000) sunriseMs
    else
      nightAltitude timeMs sunsetMs (sunriseTime.getD (sunriseMs + 24 * 60 * 60 * 1000))
  | _, _ => none

/-! ## Helper lemmas -/

theorem idFromNat_injective : Function.Injective idFromNat := by
  intro m n h
  have hlen : (idFromNat m).length = (idFromNat n).length := by rw [h]
  simpa [idFromNat, String.length] using hlen

theorem idFromNat_ne_empty (n : Nat) : idFromNat n ≠ "" := by
  intro h
  have hlen : (idFromNat n).length = ("" : String).length := by rw [h]
  simp [idFromNat, String.length] at hlen

theorem mem_jsSetDedup {a : String} : ∀ {l : List String}, a ∈ jsSetDedup l ↔ a ∈ l := by
  intro l
  induction l using jsSetDedup.induct with
  | case1 => simp [jsSetDedup]
  | case2 x xs ih =>
    rw [jsSetDedup]
    by_cases hax : a = x
    · subst hax; simp
    · simp only [List.mem_cons, ih, List.mem_filter, decide_eq_true_eq]
      constructor
      · rintro (h | ⟨h, _⟩)
        · exact Or.inl h
        · exact Or.inr h
      · rintro (h | h)
        · exact Or.inl h
        · exact Or.inr ⟨h, hax⟩

theorem nodup_jsSetDedup : ∀ (l : List String), (jsSetDedup l).Nodup := by
  intro l
  induction l using jsSetDedup.induct with
  | case1 => simp [jsSetDedup]
  | case2 x xs ih =>
    rw [jsSetDedup]
    refine List.nodup_cons.2 ⟨?_, ih⟩
    intro hmem
    have := (mem_jsSetDedup).1 hmem
    simp at this

theorem allStrings_map_jstr : ∀ (l : List String), allStrings (l.map JValue.jstr) = some l := by
  intro l
  induction l with
  | nil => rfl
  | cons x xs ih => simp [allStrings, ih]

theorem allStrings_eq_some : ∀ {xs : List JValue} {l : List String},
    allStrings xs = some l → xs = l.map JValue.jstr := by
  intro xs
  induction xs with
  | nil => intro l h; simp [allStrings] at h; simp [← h]
  | cons x rest ih =>
    intro l h
    cases x
    case jstr s =>
      simp only [allStrings, Option.map_eq_some'] at h
      obtain ⟨l0, hl0, hcons⟩ := h
      rw [← hcons, ih hl0]
      rfl
    all_goals simp [allStrings] at h

theorem getStoredIds_setStoredIds (ids : List String) (w : World) :
    getStoredIds (setStoredIds ids w) = (jsSetDedup ids).filter (fun s => s ≠ "") := by
  simp [getStoredIds, setStoredIds, safeParseIdArray, allStrings_map_jstr]

theorem getStoredIds_addStoredId (id : String) (w : World) :
    getStoredIds (addStoredId id w) =
      (jsSetDedup (getStoredIds w ++ [id])).filter (fun s => s ≠ "") := by
  simp [addStoredId, getStoredIds_setStoredIds]

/-- Fields of the world that `setStoredIds` leaves unchanged. -/
theorem setStoredIds_frame (ids : List String) (w : World) :
    (setStoredIds ids w).legacyKey = w.legacyKey ∧
    (setStoredIds ids w).nextId = w.nextId ∧
    (setStoredIds ids w).scheduled = w.scheduled ∧
    (setStoredIds ids w).cancelCalls = w.cancelCalls ∧
    (setStoredIds ids w).dismissCalls = w.dismissCalls ∧
    (setStoredIds ids w).cancelFails = w.cancelFails ∧
    (setStoredIds ids w).dismissFails = w.dismissFails := by
  simp [setStoredIds]

/-- Fields of the world that one caught cancel-then-dismiss step leaves
unchanged, and the containment it guarantees for the pending list. -/
theorem cancelStep_frame (w : World) (id : String) :
    (cancelStep w id).idsKey = w.idsKey ∧
    (cancelStep w id).legacyKey = w.legacyKey ∧
    (cancelStep w id).nextId = w.nextId ∧
    (∀ p, p ∈ (cancelStep w id).scheduled → p ∈ w.scheduled) ∧
    (cancelStep w id).cancelFails = w.cancelFails ∧
    (cancelStep w id).dismissFails = w.dismissFails := by
  unfold cancelStep cancelScheduledNotificationAsync dismissNotificationAsync
  by_cases hc : w.cancelFails id <;> by_cases hd : w.dismissFails id <;> simp [hc, hd]
  all_goals try (intro a b h; first | exact h | exact fun hne => h)

theorem foldl_cancelStep_frame (ids : List String) (w : World) :
    (ids.foldl cancelStep w).idsKey = w.idsKey ∧
    (ids.foldl cancelStep w).legacyKey = w.legacyKey ∧
    (ids.foldl cancelStep w).nextId = w.nextId ∧
    (∀ p, p ∈ (ids.foldl cancelStep w).scheduled → p ∈ w.scheduled) ∧
    (ids.foldl cancelStep w).cancelFails = w.cancelFails ∧
    (ids.foldl cancelStep w).dismissFails = w.dismissFails := by
  induction ids generalizing w with
  | nil => simp
  | cons x xs ih =>
    simp only [List.foldl_cons]
    obtain ⟨h1, h2, h3, h4, h5, h6⟩ := ih (cancelStep w x)
    obtain ⟨g1, g2, g3, g4, g5, g6⟩ := cancelStep_frame w x
    exact ⟨h1.trans g1, h2.trans g2, h3.trans g3,
      fun p hp => g4 p (h4 p hp), h5.trans g5, h6.trans g6⟩

/-- `cancelSunriseAlarm` always resolves, clears both storage keys, keeps the
counter and oracles, and only ever removes pending notifications. -/
theorem cancelSunriseAlarm_spec (w : World) :
    (cancelSunriseAlarm w).1 = Except.ok () ∧
    (cancelSunriseAlarm w).2.idsKey = none ∧
    (cancelSunriseAlarm w).2.legacyKey = none ∧
    (cancelSunriseAlarm w).2.nextId = w.nextId ∧
    (∀ p, p ∈ (cancelSunriseAlarm w).2.scheduled → p ∈ w.scheduled) ∧
    (cancelSunriseAlarm w).2.cancelFails = w.cancelFails ∧
    (cancelSunriseAlarm w).2.dismissFails = w.dismissFails := by
  unfold cancelSunriseAlarm
  set p := clearStoredIds w with hp
  have hcw : p.2.idsKey = none ∧ p.2.legacyKey = none ∧ p.2.nextId = w.nextId ∧
      p.2.scheduled = w.scheduled ∧ p.2.cancelFails = w.cancelFails ∧
      p.2.dismissFails = w.dismissFails := by
    simp [hp, clearStoredIds]
  obtain ⟨c1, c2, c3, c4, c5, c6⟩ := hcw
  by_cases he : p.1.isEmpty
  · simp [he, c1, c2, c3, c4, c5, c6]
  · obtain ⟨f1, f2, f3, f4, f5, f6⟩ := foldl_cancelStep_frame p.1 p.2
    refine ⟨by simp [he], ?_⟩
    simp only [he, if_false]
    exact ⟨f1.trans c1, f2.trans c2, f3.trans c3,
      fun q hq => c4 ▸ f4 q hq, f5.trans c5, f6.trans c6⟩

/-- `scheduleSunriseAlarm` returns the freshly generated id, records it as the
sole tracked id, schedules it bound to `whenMs`, and adds nothing else to the
pending list. -/
theorem scheduleSunriseAlarm_spec (whenMs : Int) (w : World) :
    (scheduleSunriseAlarm whenMs w).1 = idFromNat w.nextId ∧
    (scheduleSunriseAlarm whenMs w).2.nextId = w.nextId + 1 ∧
    getStoredIds (scheduleSunriseAlarm whenMs w).2 = [(scheduleSunriseAlarm whenMs w).1] ∧
    (scheduleSunriseAlarm whenMs w).2.legacyKey = none ∧
    ((scheduleSunriseAlarm whenMs w).1, Trigger.date whenMs) ∈
      (scheduleSunriseAlarm whenMs w).2.scheduled ∧
    (∀ p, p ∈ (scheduleSunriseAlarm whenMs w).2.scheduled →
      p ∈ w.scheduled ∨ p = ((scheduleSunriseAlarm whenMs w).1, Trigger.date whenMs)) ∧
    (scheduleSunriseAlarm whenMs w).2.cancelFails = w.cancelFails ∧
    (scheduleSunriseAlarm whenMs w).2.dismissFails = w.dismissFails := by
  obtain ⟨-, c1, c2, c3, c4, c5, c6⟩ := cancelSunriseAlarm_spec w
  refine ⟨?_, ?_, ?_, ?_, ?_, ?_, ?_, ?_⟩
  · simp [scheduleSunriseAlarm, scheduleNotificationAsync, c3]
  · simp [scheduleSunriseAlarm, scheduleNotificationAsync, addStoredId, setStoredIds, c3]
  · simp [scheduleSunriseAlarm, scheduleNotificationAsync, addStoredId, setStoredIds,
      getStoredIds, safeParseIdArray, allStrings, c1, jsSetDedup, idFromNat_ne_empty]
  · simp [scheduleSunriseAlarm, scheduleNotificationAsync, addStoredId, setStoredIds, c2]
  · simp [scheduleSunriseAlarm, scheduleNotificationAsync, addStoredId, setStoredIds]
  · intro p hp
    simp only [scheduleSunriseAlarm, scheduleNotificationAsync, addStoredId,
      setStoredIds] at hp ⊢
    rcases List.mem_append.1 hp with h | h
    · exact Or.inl (c4 p h)
    · simp at h
      exact Or.inr h
  · simp [scheduleSunriseAlarm, scheduleNotificationAsync, addStoredId, setStoredIds, c5]
  · simp [scheduleSunriseAlarm, scheduleNotificationAsync, addStoredId, setStoredIds, c6]

/-- Scheduling preserves platform id freshness. -/
theorem freshIds_schedule (w : World) (hw : FreshIds w) (whenMs : Int) :
    FreshIds (scheduleSunriseAlarm whenMs w).2 := by
  obtain ⟨hid, hnext, -, -, -, hsub, -, -⟩ := scheduleSunriseAlarm_spec whenMs w
  intro n hn tr hmem
  rw [hnext] at hn
  rcases hsub _ hmem with h | h
  · exact hw n (Nat.le_of_succ_le hn) tr h
  · rw [hid] at h
    have hfst : idFromNat n = idFromNat w.nextId := congrArg Prod.fst h
    have := idFromNat_injective hfst
    omega

/-- A quiescent world: empty storage, no pending notifications, no failures. -/
def w0 : World :=
  ⟨none, none, 0, [], [], [], fun _ => false, fun _ => false⟩

theorem freshIds_w0 : FreshIds w0 := by
  intro n hn tr h
  simp [w0] at h

/-- C1: after `schedule(T1)` then `schedule(T2)`, the tracked id set has
exactly one member — the id the platform returned for the second call — and
that id's pending notification is bound to `T2`; when `T1 ≠ T2` it is not
bound to `T1`. -/
theorem schedule_twice_tracked_single_second (w : World) (hw : FreshIds w) (T1 T2 : Int) :
    getStoredIds (scheduleSunriseAlarm T2 (scheduleSunriseAlarm T1 w).2).2 =
      [(scheduleSunriseAlarm T2 (scheduleSunriseAlarm T1 w).2).1] ∧
    ((scheduleSunriseAlarm T2 (scheduleSunriseAlarm T1 w).2).1, Trigger.date T2) ∈
      (scheduleSunriseAlarm T2 (scheduleSunriseAlarm T1 w).2).2.scheduled ∧
    (∀ tr, ((scheduleSunriseAlarm T2 (scheduleSunriseAlarm T1 w).2).1, tr) ∈
      (scheduleSunriseAlarm T2 (scheduleSunriseAlarm T1 w).2).2.scheduled →
      tr = Trigger.date T2) ∧
    (T1 ≠ T2 → ((scheduleSunriseAlarm T2 (scheduleSunriseAlarm T1 w).2).1, Trigger.date T1) ∉
      (scheduleSunriseAlarm T2 (scheduleSunriseAlarm T1 w).2).2.scheduled) := by
  have hw1 : FreshIds (scheduleSunriseAlarm T1 w).2 := freshIds_schedule w hw T1
  obtain ⟨hid2, hnext2, hst2, -, hmem2, hsub2, -, -⟩ :=
    scheduleSunriseAlarm_spec T2 (scheduleSunriseAlarm T1 w).2
  have h3 : ∀ tr, ((scheduleSunriseAlarm T2 (scheduleSunriseAlarm T1 w).2).1, tr) ∈
      (scheduleSunriseAlarm T2 (scheduleSunriseAlarm T1 w).2).2.scheduled →
      tr = Trigger.date T2 := by
    intro tr htr
    rcases hsub2 _ htr with h | h
    · exfalso
      rw [hid2] at h
      exact hw1 _ (le_refl _) tr h
    · have := congrArg Prod.snd h
      simpa using this
  refine ⟨hst2, hmem2, h3, ?_⟩
  intro hne hmem
  have := h3 (Trigger.date T1) hmem
  simp only [Trigger.date.injEq] at this
  exact hne this

theorem schedule_twice_tracked_single_second_witness :
    FreshIds w0 ∧
    (getStoredIds (scheduleSunriseAlarm 2 (scheduleSunriseAlarm 1 w0).2).2 =
      [(scheduleSunriseAlarm 2 (scheduleSunriseAlarm 1 w0).2).1] ∧
    ((scheduleSunriseAlarm 2 (scheduleSunriseAlarm 1 w0).2).1, Trigger.date 2) ∈
      (scheduleSunriseAlarm 2 (scheduleSunriseAlarm 1 w0).2).2.scheduled ∧
    (∀ tr, ((scheduleSunriseAlarm 2 (scheduleSunriseAlarm 1 w0).2).1, tr) ∈
      (scheduleSunriseAlarm 2 (scheduleSunriseAlarm 1 w0).2).2.scheduled →
      tr = Trigger.date 2) ∧
    ((1 : Int) ≠ 2 → ((scheduleSunriseAlarm 2 (scheduleSunriseAlarm 1 w0).2).1, Trigger.date 1) ∉
      (scheduleSunriseAlarm 2 (scheduleSunriseAlarm 1 w0).2).2.scheduled)) :=
  ⟨freshIds_w0, schedule_twice_tracked_single_second w0 freshIds_w0 1 2⟩

/-- A world holding only a legacy single-id record. -/
def w0L : World :=
  ⟨none, some ("legacy-0"), 0, [], [], [], fun _ => false, fun _ => false⟩

/-- C2 counterexample: the read of the tracked set performed by
`scheduleSnooze` (through `addStoredId`/`getStoredIds`) does not migrate the
legacy record: starting from a world holding only the legacy id
`"legacy-0"`, after a snooze the legacy record still exists and its id is not
in the tracked set. -/
theorem snooze_read_keeps_legacy :
    (scheduleSnooze 10 w0L).2.legacyKey = some ("legacy-0") ∧
    "legacy-0" ∉ getStoredIds (scheduleSnooze 10 w0L).2 := by
  constructor
  · simp [scheduleSnooze, scheduleNotificationAsync, addStoredId, setStoredIds, w0L]
  · simp [scheduleSnooze, scheduleNotificationAsync, addStoredId, setStoredIds, w0L,
      getStoredIds, safeParseIdArray, allStrings, jsSetDedup, idFromNat]

/-- C2 (amended): the legacy record is unioned into the tracked set and
deleted on the clearing read used by `cancel` (`clearStoredIds`), and that
read also removes the tracked-set record; the ordinary read used by `snooze`
leaves the legacy record untouched. -/
theorem migration_on_clear_only (w : World) (s : String) (m : ℚ) :
    (clearStoredIds w).2.legacyKey = none ∧
    (clearStoredIds w).2.idsKey = none ∧
    (w.legacyKey = some s → s ≠ "" → s ∈ (clearStoredIds w).1) ∧
    (∀ id, id ∈ getStoredIds w → id ≠ "" → id ∈ (clearStoredIds w).1) ∧
    (scheduleSnooze m w).2.legacyKey = w.legacyKey := by
  refine ⟨by simp [clearStoredIds], by simp [clearStoredIds], ?_, ?_, ?_⟩
  · intro hleg hs
    simp only [clearStoredIds, hleg, hs, if_true]
    simp [List.mem_filter, mem_jsSetDedup, hs]
  · intro id hid hne
    cases hleg : w.legacyKey with
    | none =>
      simp only [clearStoredIds, hleg]
      simp [List.mem_filter, mem_jsSetDedup, hid, hne]
    | some s2 =>
      simp only [clearStoredIds, hleg]
      by_cases hs2 : s2 = "" <;>
        simp [hs2, List.mem_filter, mem_jsSetDedup, hid, hne]
  · simp [scheduleSnooze, scheduleNotificationAsync, addStoredId, setStoredIds]

theorem migration_on_clear_only_witness :
    (w0L.legacyKey = some ("legacy-0") ∧ "legacy-0" ≠ "") ∧
    "legacy-0" ∈ (clearStoredIds w0L).1 ∧
    (clearStoredIds w0L).2.legacyKey = none :=
  ⟨⟨rfl, by decide⟩,
   (migration_on_clear_only w0L ("legacy-0") 10).2.2.1 rfl (by decide),
   (migration_on_clear_only w0L ("legacy-0") 10).1⟩

/-- C3: `cancelSunriseAlarm` always resolves successfully, whatever the
tracked-set state and whatever per-id platform calls fail; on an empty
tracked set it issues no platform calls, leaves the pending list alone and
leaves the set empty. -/
theorem cancel_never_fails (w : World) :
    (cancelSunriseAlarm w).1 = Except.ok () ∧
    (getStoredIds w = [] → w.legacyKey = none →
      getStoredIds (cancelSunriseAlarm w).2 = [] ∧
      (cancelSunriseAlarm w).2.scheduled = w.scheduled ∧
      (cancelSunriseAlarm w).2.cancelCalls = w.cancelCalls ∧
      (cancelSunriseAlarm w).2.dismissCalls = w.dismissCalls) := by
  refine ⟨(cancelSunriseAlarm_spec w).1, ?_⟩
  intro h1 h2
  have hclear : clearStoredIds w = ([], { w with idsKey := none, legacyKey := none }) := by
    simp [clearStoredIds, h1, h2, jsSetDedup]
  simp [cancelSunriseAlarm, hclear, getStoredIds, safeParseIdArray]

theorem cancel_never_fails_witness :
    (getStoredIds w0 = [] ∧ w0.legacyKey = none) ∧
    ((cancelSunriseAlarm w0).1 = Except.ok () ∧
     getStoredIds (cancelSunriseAlarm w0).2 = [] ∧
     (cancelSunriseAlarm w0).2.scheduled = w0.scheduled ∧
     (cancelSunriseAlarm w0).2.cancelCalls = w0.cancelCalls ∧
     (cancelSunriseAlarm w0).2.dismissCalls = w0.dismissCalls) :=
  ⟨⟨rfl, rfl⟩, (cancel_never_fails w0).1, (cancel_never_fails w0).2 rfl rfl⟩

/-- C4: from storage holding only the legacy record `"legacy-1"`, the first
`cancel()` issues exactly one cancel and one dismiss call, both for
`"legacy-1"`, and afterwards neither the legacy record nor the tracked-set
record exists. -/
theorem cancel_migrates_legacy_record (w : World)
    (h1 : w.idsKey = none) (h2 : w.legacyKey = some ("legacy-1")) :
    (cancelSunriseAlarm w).2.cancelCalls = w.cancelCalls ++ ["legacy-1"] ∧
    (cancelSunriseAlarm w).2.dismissCalls = w.dismissCalls ++ ["legacy-1"] ∧
    (cancelSunriseAlarm w).2.idsKey = none ∧
    (cancelSunriseAlarm w).2.legacyKey = none := by
  have hclear : clearStoredIds w =
      (["legacy-1"], { w with idsKey := none, legacyKey := none }) := by
    simp [clearStoredIds, getStoredIds, h1, h2, safeParseIdArray, jsSetDedup]
  simp only [cancelSunriseAlarm, hclear, List.isEmpty_cons, List.foldl_cons, List.foldl_nil,
    Bool.false_eq_true, if_false, cancelStep, cancelScheduledNotificationAsync,
    dismissNotificationAsync]
  by_cases hc : w.cancelFails ("legacy-1") <;> by_cases hd : w.dismissFails ("legacy-1") <;>
    simp [hc, hd]

theorem cancel_migrates_legacy_record_witness :
    ((⟨none, some ("legacy-1"), 0, [], [], [], fun _ => false, fun _ => false⟩ :
        World).idsKey = none ∧
      (⟨none, some ("legacy-1"), 0, [], [], [], fun _ => false, fun _ => false⟩ :
        World).legacyKey = some ("legacy-1")) ∧
    ((cancelSunriseAlarm ⟨none, some ("legacy-1"), 0, [], [], [],
        fun _ => false, fun _ => false⟩).2.cancelCalls = [] ++ ["legacy-1"] ∧
     (cancelSunriseAlarm ⟨none, some ("legacy-1"), 0, [], [], [],
        fun _ => false, fun _ => false⟩).2.dismissCalls = [] ++ ["legacy-1"] ∧
     (cancelSunriseAlarm ⟨none, some ("legacy-1"), 0, [], [], [],
        fun _ => false, fun _ => false⟩).2.idsKey = none ∧
     (cancelSunriseAlarm ⟨none, some ("legacy-1"), 0, [], [], [],
        fun _ => false, fun _ => false⟩).2.legacyKey = none) :=
  ⟨⟨rfl, rfl⟩, cancel_migrates_legacy_record _ rfl rfl⟩

/-- The tracked set after a snooze, expressed over the tracked set before. -/
theorem getStoredIds_scheduleSnooze (m : ℚ) (w : World) :
    (scheduleSnooze m w).1 = idFromNat w.nextId ∧
    getStoredIds (scheduleSnooze m w).2 =
      (jsSetDedup (getStoredIds w ++ [idFromNat w.nextId])).filter (fun s => s ≠ "") := by
  constructor
  · simp [scheduleSnooze, scheduleNotificationAsync]
  · simp [scheduleSnooze, scheduleNotificationAsync, addStoredId, setStoredIds,
      getStoredIds, safeParseIdArray, allStrings_map_jstr]

/-- C9: `snooze(minutes)` cancels nothing and removes no tracked id: every
pending notification and every previously tracked (nonempty) id survives, and
the returned snooze id is appended to the tracked set, which gains nothing
else. -/
theorem snooze_preserves_tracked_ids (w : World) (m : ℚ)
    (hne : "" ∉ getStoredIds w) :
    (∀ id, id ∈ getStoredIds w → id ∈ getStoredIds (scheduleSnooze m w).2) ∧
    (scheduleSnooze m w).1 ∈ getStoredIds (scheduleSnooze m w).2 ∧
    (∀ id, id ∈ getStoredIds (scheduleSnooze m w).2 →
      id ∈ getStoredIds w ∨ id = (scheduleSnooze m w).1) ∧
    (scheduleSnooze m w).2.cancelCalls = w.cancelCalls ∧
    (scheduleSnooze m w).2.dismissCalls = w.dismissCalls ∧
    (∀ p, p ∈ w.scheduled → p ∈ (scheduleSnooze m w).2.scheduled) := by
  obtain ⟨hid, hst⟩ := getStoredIds_scheduleSnooze m w
  refine ⟨?_, ?_, ?_, ?_, ?_, ?_⟩
  · intro id hidmem
    have hidne : id ≠ "" := fun h => hne (h ▸ hidmem)
    rw [hst]
    simp [List.mem_filter, mem_jsSetDedup, hidne, List.mem_append, hidmem]
  · rw [hid, hst]
    simp [List.mem_filter, mem_jsSetDedup, idFromNat_ne_empty]
  · intro id hidmem
    rw [hid]
    rw [hst] at hidmem
    have := (mem_jsSetDedup).1 (List.mem_filter.1 hidmem).1
    rcases List.mem_append.1 this with h | h
    · exact Or.inl h
    · simp at h
      exact Or.inr h
  · simp [scheduleSnooze, scheduleNotificationAsync, addStoredId, setStoredIds]
  · simp [scheduleSnooze, scheduleNotificationAsync, addStoredId, setStoredIds]
  · intro p hp
    simp [scheduleSnooze, scheduleNotificationAsync, addStoredId, setStoredIds, hp]

theorem snooze_preserves_tracked_ids_witness :
    ("" ∉ getStoredIds w0) ∧
    ((∀ id, id ∈ getStoredIds w0 → id ∈ getStoredIds (scheduleSnooze 10 w0).2) ∧
     (scheduleSnooze 10 w0).1 ∈ getStoredIds (scheduleSnooze 10 w0).2 ∧
     (∀ id, id ∈ getStoredIds (scheduleSnooze 10 w0).2 →
       id ∈ getStoredIds w0 ∨ id = (scheduleSnooze 10 w0).1) ∧
     (scheduleSnooze 10 w0).2.cancelCalls = w0.cancelCalls ∧
     (scheduleSnooze 10 w0).2.dismissCalls = w0.dismissCalls ∧
     (∀ p, p ∈ w0.scheduled → p ∈ (scheduleSnooze 10 w0).2.scheduled)) :=
  ⟨by simp [w0, getStoredIds, safeParseIdArray],
   snooze_preserves_tracked_ids w0 10 (by simp [w0, getStoredIds, safeParseIdArray])⟩

/-- What `setStoredIds` persists is always duplicate-free and free of empty
ids. -/
theorem wf_filter_dedup (l : List String) :
    ((jsSetDedup l).filter (fun s => s ≠ "")).Nodup ∧
    "" ∉ (jsSetDedup l).filter (fun s => s ≠ "") := by
  refine ⟨(nodup_jsSetDedup l).filter _, ?_⟩
  intro h
  simpa using (List.mem_filter.1 h).2

/-- Each alarm operation leaves a duplicate-free, empty-free tracked set. -/
theorem wf_applyOp (w : World) (op : AlarmOp) :
    (getStoredIds (applyOp w op)).Nodup ∧ "" ∉ getStoredIds (applyOp w op) := by
  cases op with
  | sched t =>
    obtain ⟨hid, -, hst, -, -, -, -, -⟩ := scheduleSunriseAlarm_spec t w
    rw [applyOp, hst, hid]
    refine ⟨List.nodup_singleton _, ?_⟩
    simp only [List.mem_singleton]
    exact fun h => idFromNat_ne_empty w.nextId h.symm
  | snooze m =>
    obtain ⟨-, hst⟩ := getStoredIds_scheduleSnooze m w
    rw [applyOp, hst]
    exact wf_filter_dedup _
  | cancel =>
    obtain ⟨-, c1, -, -, -, -, -⟩ := cancelSunriseAlarm_spec w
    rw [applyOp]
    rw [getStoredIds, c1]
    simp [safeParseIdArray]

theorem wf_runOps_cons : ∀ (ops : List AlarmOp) (w : World) (op : AlarmOp),
    (getStoredIds (runOps w (op :: ops))).Nodup ∧
    "" ∉ getStoredIds (runOps w (op :: ops)) := by
  intro ops
  induction ops with
  | nil => intro w op; simpa [runOps] using wf_applyOp w op
  | cons op2 rest ih =>
    intro w op
    have := ih (applyOp w op) op2
    simpa [runOps] using this

/-- C10: every write of the tracked set goes through `setStoredIds`, so after
any nonempty sequence of schedule/snooze/cancel operations the persisted
tracked set has no duplicate and no empty id; and any persisted value that is
not a JSON array of strings reads back as the empty set. -/
theorem tracked_set_write_invariant :
    (∀ (w : World) (ops : List AlarmOp), ops ≠ [] →
      (getStoredIds (runOps w ops)).Nodup ∧ "" ∉ getStoredIds (runOps w ops)) ∧
    (∀ v : JValue, (¬ ∃ l : List String, v = JValue.jarr (l.map JValue.jstr)) →
      safeParseIdArray (some v) = []) := by
  constructor
  · intro w ops hne
    cases ops with
    | nil => exact absurd rfl hne
    | cons op rest => exact wf_runOps_cons rest w op
  · intro v hv
    cases v with
    | jarr xs =>
      rw [safeParseIdArray]
      cases hall : allStrings xs with
      | none => rfl
      | some l => exact absurd ⟨l, congrArg JValue.jarr (allStrings_eq_some hall)⟩ hv
    | jnull => rfl
    | jbool b => rfl
    | jnum q => rfl
    | jstr s => rfl
    | jobj o => rfl
    | invalid => rfl

theorem tracked_set_write_invariant_witness :
    (([AlarmOp.cancel] : List AlarmOp) ≠ [] ∧
      (¬ ∃ l : List String, JValue.jnum 3 = JValue.jarr (l.map JValue.jstr))) ∧
    ((getStoredIds (runOps w0 [AlarmOp.cancel])).Nodup ∧
      "" ∉ getStoredIds (runOps w0 [AlarmOp.cancel])) ∧
    safeParseIdArray (some (JValue.jnum 3)) = [] :=
  ⟨⟨by simp, by rintro ⟨l, h⟩; exact JValue.noConfusion h⟩,
   tracked_set_write_invariant.1 w0 [AlarmOp.cancel] (by simp),
   tracked_set_write_invariant.2 (JValue.jnum 3)
     (by rintro ⟨l, h⟩; exact JValue.noConfusion h)⟩

/-- C5: after a `put` at `t0`, a `get` with `ttl = 300000` at `t0 + 200000`
returns the same bundle and air quality flagged fresh, and at `t0 + 400000`
the same bundle flagged stale; on this entry freshness is exactly
`now - fetchedAt < ttl`. -/
theorem cache_put_get_ttl (s : CacheState) (lat lon : ℚ) (b : WeatherBundle)
    (aq : Option Int) (t0 : Int) :
    (getCachedWeather (t0 + 200000) lat lon 300000
        (updateWeatherCache t0 lat lon b aq s)).1 = ⟨some b, aq, true⟩ ∧
    (getCachedWeather (t0 + 400000) lat lon 300000
        (updateWeatherCache t0 lat lon b aq s)).1 = ⟨some b, aq, false⟩ ∧
    (∀ nowMs ttlMs : Int,
      ((getCachedWeather nowMs lat lon ttlMs (updateWeatherCache t0 lat lon b aq s)).1).isFresh =
        entryIsFresh nowMs t0 ttlMs) ∧
    (∀ nowMs ttlMs : Int, entryIsFresh nowMs t0 ttlMs = decide (nowMs - t0 < ttlMs)) := by
  have h1 : entryIsFresh (t0 + 200000) t0 300000 = true := by
    simp only [entryIsFresh, decide_eq_true_iff]
    omega
  have h2 : entryIsFresh (t0 + 400000) t0 300000 = false := by
    simp only [entryIsFresh, decide_eq_false_iff_not]
    omega
  refine ⟨?_, ?_, ?_, fun nowMs ttlMs => rfl⟩
  · simp [getCachedWeather, updateWeatherCache, h1]
  · simp [getCachedWeather, updateWeatherCache, h2]
  · intro nowMs ttlMs
    simp [getCachedWeather, updateWeatherCache]

/-- C8: the two coordinate pairs round to the same 3-decimal cache key, so a
`get` at `{37.77493, -122.41942}` right after a `put` at
`{37.77490, -122.41940}` is a cache hit returning the stored bundle. -/
theorem cache_key_rounding_hit (s : CacheState) (b : WeatherBundle) (aq : Option Int)
    (t0 nowMs ttlMs : Int) :
    makeCacheKey (37.77493 : ℚ) (-122.41942 : ℚ) =
      makeCacheKey (37.77490 : ℚ) (-122.41940 : ℚ) ∧
    ((getCachedWeather nowMs (37.77493 : ℚ) (-122.41942 : ℚ) ttlMs
        (updateWeatherCache t0 (37.77490 : ℚ) (-122.41940 : ℚ) b aq s)).1).bundle = some b ∧
    ((getCachedWeather nowMs (37.77493 : ℚ) (-122.41942 : ℚ) ttlMs
        (updateWeatherCache t0 (37.77490 : ℚ) (-122.41940 : ℚ) b aq s)).1).airQuality = aq := by
  have hf1 : ⌊(37.77493 : ℚ) * 1000 + 1 / 2⌋ = (37775 : Int) := by norm_num
  have hf2 : ⌊(37.77490 : ℚ) * 1000 + 1 / 2⌋ = (37775 : Int) := by norm_num
  have hf3 : ⌊(-122.41942 : ℚ) * 1000 + 1 / 2⌋ = (-122419 : Int) := by norm_num
  have hf4 : ⌊(-122.41940 : ℚ) * 1000 + 1 / 2⌋ = (-122419 : Int) := by norm_num
  have hk : makeCacheKey (37.77493 : ℚ) (-122.41942 : ℚ) =
      makeCacheKey (37.77490 : ℚ) (-122.41940 : ℚ) := by
    simp only [makeCacheKey, toFixed3, hf1, hf2, hf3, hf4]
  refine ⟨hk, ?_, ?_⟩ <;> simp [getCachedWeather, updateWeatherCache, hk]

/-- C7: a degenerate day (`sunset ≤ sunrise`) makes the altitude `null` for
every instant. -/
theorem sun_altitude_degenerate_day_null (t sr ss : ℚ) (next : Option ℚ)
    (h : ss ≤ sr) :
    getSunAltitude t (some sr) (some ss) next = none := by
  simp [getSunAltitude, h]

theorem sun_altitude_degenerate_day_null_witness :
    ((3 : ℚ) ≤ 10) ∧ getSunAltitude 5 (some 10) (some 3) none = none :=
  ⟨by norm_num, sun_altitude_degenerate_day_null 5 10 3 none (by norm_num)⟩

/-- C6: on a valid day the altitude over `[sunrise, sunset]` is exactly
`sin(π · (t − sunrise)/(sunset − sunrise))`, hence `0` at sunrise and sunset
and `1` at the day's midpoint; and at the midpoint of the sunset-to-next-
sunrise span the altitude is `-1`. -/
theorem sun_altitude_day_values (sr ss next : ℚ) (h1 : sr < ss) (h2 : ss < next) :
    (∀ t, sr ≤ t → t ≤ ss →
      getSunAltitude t (some sr) (some ss) (some next) =
        some (Real.sin (Real.pi * (((t - sr) / (ss - sr) : ℚ) : ℝ)))) ∧
    getSunAltitude sr (some sr) (some ss) (some next) = some 0 ∧
    getSunAltitude ss (some sr) (some ss) (some next) = some 0 ∧
    getSunAltitude ((sr + ss) / 2) (some sr) (some ss) (some next) = some 1 ∧
    getSunAltitude ((ss + next) / 2) (some sr) (some ss) (some next) = some (-1) := by
  have hne : (ss - sr : ℚ) ≠ 0 := sub_ne_zero.mpr h1.ne'
  have ha : ∀ t, sr ≤ t → t ≤ ss →
      getSunAltitude t (some sr) (some ss) (some next) =
        some (Real.sin (Real.pi * (((t - sr) / (ss - sr) : ℚ) : ℝ))) := by
    intro t ht1 ht2
    simp [getSunAltitude, h1.not_le, ht1, ht2]
  refine ⟨ha, ?_, ?_, ?_, ?_⟩
  · rw [ha sr le_rfl h1.le]
    simp
  · rw [ha ss h1.le le_rfl, div_self hne]
    simp [Real.sin_pi]
  · have hm1 : sr ≤ (sr + ss) / 2 := by linarith
    have hm2 : (sr + ss) / 2 ≤ ss := by linarith
    rw [ha _ hm1 hm2]
    have hhalf : (((sr + ss) / 2 - sr) / (ss - sr) : ℚ) = 1 / 2 := by
      field_simp
      ring
    rw [hhalf]
    rw [show ((1 / 2 : ℚ) : ℝ) = 1 / 2 by norm_num, mul_one_div, Real.sin_pi_div_two]
  · have hts : ss < (ss + next) / 2 := by linarith
    have hcond : ¬(sr ≤ (ss + next) / 2 ∧ (ss + next) / 2 ≤ ss) := by
      rintro ⟨-, h⟩
      linarith
    have hnotlt : ¬((ss + next) / 2 < sr) := not_lt.mpr (by linarith)
    have hspan : ¬(next - ss ≤ 0) := (sub_pos.mpr h2).not_le
    simp only [getSunAltitude, h1.not_le, hcond, hnotlt, if_false, Option.getD_some,
      nightAltitude, hspan]
    have hhalf : (((ss + next) / 2 - ss) / (next - ss) : ℚ) = 1 / 2 := by
      have hne2 : (next - ss : ℚ) ≠ 0 := sub_ne_zero.mpr h2.ne'
      field_simp
      ring
    rw [hhalf]
    rw [show ((1 / 2 : ℚ) : ℝ) = 1 / 2 by norm_num, mul_one_div, Real.sin_pi_div_two]

theorem sun_altitude_day_values_witness :
    ((21600000 : ℚ) < 64800000 ∧ (64800000 : ℚ) < 108000000) ∧
    ((∀ t, (21600000 : ℚ) ≤ t → t ≤ 64800000 →
      getSunAltitude t (some 21600000) (some 64800000) (some 108000000) =
        some (Real.sin (Real.pi * (((t - 21600000) / (64800000 - 21600000) : ℚ) : ℝ)))) ∧
    getSunAltitude 21600000 (some 21600000) (some 64800000) (some 108000000) = some 0 ∧
    getSunAltitude 64800000 (some 21600000) (some 64800000) (some 108000000) = some 0 ∧
    getSunAltitude ((21600000 + 64800000) / 2) (some 21600000) (some 64800000)
      (some 108000000) = some 1 ∧
    getSunAltitude ((64800000 + 108000000) / 2) (some 21600000) (some 64800000)
      (some 108000000) = some (-1)) :=
  ⟨⟨by norm_num, by norm_num⟩,
   sun_altitude_day_values 21600000 64800000 108000000 (by norm_num) (by norm_num)⟩

end SunriseExpo
